import Mathlib

/-!
Shallow embedding of the real-time fan-out subsystem of the 404chan backend:
the event bus (`internal/utils/eventbus.go`), the WebSocket hub / coordinator
(`internal/gateways/websocket/hub.go`) and the connection adapter
(`internal/gateways/websocket/handler.go`).

Go `interface{}` values that flow through event payloads are modelled by
`GoValue` (scalar values) and `GoData` (either a scalar or a
`map[string]interface{}` with scalar values); `float64` payloads are modelled
as carrying an integral value, since every publisher in the repository puts
integer identifiers and unix timestamps into payloads and no claim depends on
fractional floats.  Go maps are modelled as association lists with first-match
lookup and overwrite-on-insert; Go map iteration order is unspecified, which
the list order represents (no theorem below depends on it).  Machine `uint64`
conversions are taken modulo 2^64.
-/

namespace Chan404

/-- Scalar Go value inside an event payload (`interface{}` cases that the
hub's type assertions distinguish). -/
inductive GoValue where
  | vNull
  | vFloat (n : Int)
  | vInt (n : Int)
  | vInt64 (n : Int)
  | vUInt64 (n : Nat)
  | vStr (s : String)
  | vBool (b : Bool)
deriving DecidableEq, Repr

/-- An `interface{}` event payload: either a non-map value or a
`map[string]interface{}` (association list of scalar values). -/
inductive GoData where
  | prim (v : GoValue)
  | map (entries : List (String × GoValue))
deriving DecidableEq, Repr

/-- Go map read `data[k]` with comma-ok: first matching key. -/
def lookupKey : List (String × GoValue) → String → Option GoValue
  | [], _ => none
  | (k', v) :: rest, k => if k' = k then some v else lookupKey rest k

/-- The `uint64` conversion performed by `handleNicknameUpdated`'s type
switch on `data["user_id"]`: `float64`, `int`, `int64` convert via `uint64(v)`
(modulo 2^64), `uint64` passes through, everything else is rejected. -/
def goToUInt64 : GoValue → Option Nat
  | .vFloat n => some ((n % (2 ^ 64 : Int)).toNat)
  | .vInt n => some ((n % (2 ^ 64 : Int)).toNat)
  | .vInt64 n => some ((n % (2 ^ 64 : Int)).toNat)
  | .vUInt64 n => some n
  | _ => none

/-- `utils.Event`: the struct published on the bus (`Event` kind string and
`Data interface{}`). -/
structure Event where
  event : String
  data : GoData
deriving DecidableEq, Repr

/-- A `websocket.Client` as the hub sees it: generated id, owning session id,
owning user id (both `uint64`) and the session key.  The `conn` endpoint is
modelled separately by a send-outcome function per dispatch. -/
structure Client where
  id : String
  sessionID : Nat
  userID : Nat
  sessionKey : String
deriving DecidableEq, Repr

/-- An outbound wire message: the `map[string]interface{}` passed to
`conn.WriteJSON`.  Values are `GoData` because `stats_updated` embeds the
whole event payload under `"data"`. -/
abbrev WireMsg := List (String × GoData)

/-- Go map write `msg[k] = v` on a wire message: overwrite the key if
present, append otherwise. -/
def setKey : WireMsg → String → GoData → WireMsg
  | [], k, v => [(k, v)]
  | (k', v') :: rest, k, v =>
      if k' = k then (k, v) :: rest else (k', v') :: setKey rest k v

/-- Go map read on a wire message (first matching key). -/
def lookupWire : WireMsg → String → Option GoData
  | [], _ => none
  | (k', v) :: rest, k => if k' = k then some v else lookupWire rest k

/-- Result of one handler dispatch over the live set: `sends` records the
successful `conn.WriteJSON` calls (recipient paired with the message written)
in iteration order, and `syncUnregs` records, in iteration order, the clients
whose send failed — for each of those the Go code calls `client.conn.Close()`
and then performs the synchronous channel send `h.unregister <- client`
inside the loop. -/
structure DispatchResult where
  sends : List (Client × WireMsg)
  syncUnregs : List Client
deriving DecidableEq, Repr

/-- Dispatch result of a handler that returned early (logged and dropped). -/
def emptyResult : DispatchResult := ⟨[], []⟩

/-- The `for client := range h.clients` loop of the broadcast handlers
(`handleThreadCreated`, `handleMessageCreated`, `handleStatsUpdated`): write
`msg` to every client; on failure close the endpoint and synchronously send
the client to `h.unregister`. -/
def broadcastLoop (msg : WireMsg) (sendOk : Client → Bool) : List Client → DispatchResult
  | [] => ⟨[], []⟩
  | c :: cs =>
      let r := broadcastLoop msg sendOk cs
      if sendOk c then ⟨(c, msg) :: r.sends, r.syncUnregs⟩
      else ⟨r.sends, c :: r.syncUnregs⟩

/-- The loop of `handleNicknameUpdated`: same as `broadcastLoop` but guarded
by `client.UserID == userID`. -/
def targetedLoop (userID : Nat) (msg : WireMsg) (sendOk : Client → Bool) :
    List Client → DispatchResult
  | [] => ⟨[], []⟩
  | c :: cs =>
      let r := targetedLoop userID msg sendOk cs
      if c.userID = userID then
        if sendOk c then ⟨(c, msg) :: r.sends, r.syncUnregs⟩
        else ⟨r.sends, c :: r.syncUnregs⟩
      else r

/-- Message built by `handleThreadCreated`: the four fixed keys, then every
other payload entry copied in (`msg[k] = v` for `k` outside the three
extracted keys). -/
def threadCreatedMsg (data : List (String × GoValue))
    (threadID boardID timestamp : GoValue) : WireMsg :=
  (data.filter fun e => e.1 ≠ "thread_id" && e.1 ≠ "board_id" && e.1 ≠ "timestamp").foldl
    (fun m e => setKey m e.1 (.prim e.2))
    [("event", .prim (.vStr "thread_created")), ("thread_id", .prim threadID),
     ("board_id", .prim boardID), ("timestamp", .prim timestamp)]

/-- `Hub.handleThreadCreated`: require a map payload with `timestamp`,
`thread_id` and `board_id` (else log and return), then broadcast. -/
def handleThreadCreated (clients : List Client) (sendOk : Client → Bool)
    (ev : Event) : DispatchResult :=
  match ev.data with
  | .prim _ => emptyResult
  | .map data =>
    match lookupKey data "timestamp" with
    | none => emptyResult
    | some timestamp =>
      match lookupKey data "thread_id" with
      | none => emptyResult
      | some threadID =>
        match lookupKey data "board_id" with
        | none => emptyResult
        | some boardID =>
          broadcastLoop (threadCreatedMsg data threadID boardID timestamp) sendOk clients

/-- Message built by `handleMessageCreated`: four fixed keys plus the
remaining payload entries. -/
def messageCreatedMsg (data : List (String × GoValue))
    (messageID threadID timestamp : GoValue) : WireMsg :=
  (data.filter fun e => e.1 ≠ "message_id" && e.1 ≠ "thread_id" && e.1 ≠ "timestamp").foldl
    (fun m e => setKey m e.1 (.prim e.2))
    [("event", .prim (.vStr "message_created")), ("message_id", .prim messageID),
     ("thread_id", .prim threadID), ("timestamp", .prim timestamp)]

/-- `Hub.handleMessageCreated`: require a map payload with `timestamp`,
`message_id` and `thread_id`, then broadcast. -/
def handleMessageCreated (clients : List Client) (sendOk : Client → Bool)
    (ev : Event) : DispatchResult :=
  match ev.data with
  | .prim _ => emptyResult
  | .map data =>
    match lookupKey data "timestamp" with
    | none => emptyResult
    | some timestamp =>
      match lookupKey data "message_id" with
      | none => emptyResult
      | some messageID =>
        match lookupKey data "thread_id" with
        | none => emptyResult
        | some threadID =>
          broadcastLoop (messageCreatedMsg data messageID threadID timestamp) sendOk clients

/-- Value of `nickname, _ := data["nickname"].(string)`: the string if the
key holds a string, the empty string otherwise (missing key or wrong type). -/
def goNickname (data : List (String × GoValue)) : String :=
  match lookupKey data "nickname" with
  | some (.vStr s) => s
  | _ => ""

/-- Value of `timestamp, _ := data["timestamp"]`: `nil` when absent. -/
def goTimestamp (data : List (String × GoValue)) : GoValue :=
  (lookupKey data "timestamp").getD .vNull

/-- Message built by `handleNicknameUpdated`. -/
def nicknameMsg (userID : Nat) (nickname : String) (timestamp : GoValue) : WireMsg :=
  [("event", .prim (.vStr "nickname_updated")), ("user_id", .prim (.vUInt64 userID)),
   ("nickname", .prim (.vStr nickname)), ("timestamp", .prim timestamp)]

/-- `Hub.handleNicknameUpdated`: require a map payload whose `user_id`
exists and has a supported numeric type (else log and return); `nickname`
and `timestamp` are read with non-fatal defaults; then send only to clients
with matching `UserID`. -/
def handleNicknameUpdated (clients : List Client) (sendOk : Client → Bool)
    (ev : Event) : DispatchResult :=
  match ev.data with
  | .prim _ => emptyResult
  | .map data =>
    match lookupKey data "user_id" with
    | none => emptyResult
    | some raw =>
      match goToUInt64 raw with
      | none => emptyResult
      | some userID =>
        targetedLoop userID (nicknameMsg userID (goNickname data) (goTimestamp data))
          sendOk clients

/-- Message built by `handleStatsUpdated`: only `event` and the raw payload
under `data`. -/
def statsMsg (d : GoData) : WireMsg :=
  [("event", .prim (.vStr "stats_updated")), ("data", d)]

/-- `Hub.handleStatsUpdated`: no payload validation; broadcast
`{event, data}` to every client. -/
def handleStatsUpdated (clients : List Client) (sendOk : Client → Bool)
    (ev : Event) : DispatchResult :=
  broadcastLoop (statsMsg ev.data) sendOk clients

/-- `Hub.handleEvent`: the switch over `event.Event`; unknown kinds are
logged and dropped. -/
def handleEvent (clients : List Client) (sendOk : Client → Bool)
    (ev : Event) : DispatchResult :=
  if ev.event = "nickname_updated" then handleNicknameUpdated clients sendOk ev
  else if ev.event = "thread_created" then handleThreadCreated clients sendOk ev
  else if ev.event = "message_created" then handleMessageCreated clients sendOk ev
  else if ev.event = "stats_updated" then handleStatsUpdated clients sendOk ev
  else emptyResult

/-- Capacity of the bus's buffered delivery channel:
`events: make(chan Event, 100)` in `NewEventBus`. -/
def busCapacity : Nat := 100

/-- `utils.EventBus`: the subscriber map (`map[string][]Handler`, handlers
modelled by opaque numeric identifiers) and the buffered delivery channel
(queue of pending, published-but-unconsumed events). -/
structure EventBus where
  subscribers : List (String × List Nat)
  queue : List Event
deriving DecidableEq, Repr

/-- `utils.NewEventBus`: empty subscriber map, empty channel. -/
def newEventBus : EventBus := ⟨[], []⟩

/-- `EventBus.Publish`: build the event, then `select` with a `default`
branch — enqueue if the channel has room, otherwise drop.  The second
component of the result lists the handler invocations the call performs;
the body of `Publish` contains no call into `eb.subscribers`, so it is
always empty.  `Publish` has no error return and no blocking path. -/
def publish (eb : EventBus) (event : String) (data : GoData) : EventBus × List Nat :=
  let e : Event := ⟨event, data⟩
  if eb.queue.length < busCapacity then ({ eb with queue := eb.queue ++ [e] }, [])
  else (eb, [])

/-- Insertion into the subscriber map:
`eb.subscribers[event] = append(eb.subscribers[event], handler)`. -/
def addHandler : List (String × List Nat) → String → Nat → List (String × List Nat)
  | [], ev, h => [(ev, [h])]
  | (ev', hs) :: rest, ev, h =>
      if ev' = ev then (ev', hs ++ [h]) :: rest else (ev', hs) :: addHandler rest ev h

/-- `EventBus.Subscribe`: record the handler under the kind (appending, not
replacing). -/
def subscribe (eb : EventBus) (event : String) (handlerId : Nat) : EventBus :=
  { eb with subscribers := addHandler eb.subscribers event handlerId }

/-- Go map read on the subscriber map (`nil` slice when absent). -/
def handlersLookup : List (String × List Nat) → String → List Nat
  | [], _ => []
  | (ev', hs) :: rest, ev => if ev' = ev then hs else handlersLookup rest ev

/-- Handlers registered for a kind. -/
def handlersOf (eb : EventBus) (event : String) : List Nat :=
  handlersLookup eb.subscribers event

/-- The four `Subscribe` calls `NewHub` performs, with handler identifiers
0–3 standing for the four logging wrappers around the hub's handlers. -/
def hubWireBus (eb : EventBus) : EventBus :=
  subscribe (subscribe (subscribe (subscribe eb "nickname_updated" 0)
    "thread_created" 1) "message_created" 2) "stats_updated" 3

/-- Number of times the coordinator's dispatch logic processes one `Publish`
call's event: handler invocations performed by `Publish` itself (each wired
callback runs a hub handler) plus the number of copies the call adds to the
queue consumed by `Hub.Run` (which calls `handleEvent` once per received
event). -/
def publishProcessCount (eb : EventBus) (kind : String) (d : GoData) : Nat :=
  (publish eb kind d).2.length + ((publish eb kind d).1.queue.length - eb.queue.length)

/-- A request arriving on the hub's `register` or `unregister` channel. -/
inductive HubOp where
  | register (c : Client)
  | unregister (c : Client)
deriving DecidableEq, Repr

/-- A fire-and-forget side effect the hub schedules on disconnect:
`sessionClose sid` is the goroutine calling `UpdateSessionEndedAt(sid)`;
`cacheDelete uid sid` is the goroutine deleting the Redis key
`user:{uid}:session:{sid}`. -/
inductive Effect where
  | sessionClose (sessionID : Nat)
  | cacheDelete (userID sessionID : Nat)
deriving DecidableEq, Repr

/-- One iteration of `Hub.Run`'s select loop on a register or unregister
request: register inserts into the `map[*Client]bool` (writing `true` again
for a present key changes nothing); unregister deletes the client if present
and schedules the two side-effect goroutines, and is a no-op otherwise. -/
def hubStep (clients : List Client) : HubOp → List Client × List Effect
  | .register c => (if c ∈ clients then clients else c :: clients, [])
  | .unregister c =>
      if c ∈ clients then
        (clients.erase c, [.sessionClose c.sessionID, .cacheDelete c.userID c.sessionID])
      else (clients, [])

/-- `Hub.Run` servicing a sequence of register/unregister requests: the
resulting live set and the concatenated scheduled side effects. -/
def hubRun : List Client → List HubOp → List Client × List Effect
  | s, [] => (s, [])
  | s, op :: ops =>
      let r := hubStep s op
      let r' := hubRun r.1 ops
      (r'.1, r.2 ++ r'.2)

/-- Number of registers in a request sequence whose argument was not in the
live set when serviced (those are the ones that grow the set). -/
def effectiveRegs : List Client → List HubOp → Nat
  | _, [] => 0
  | s, op :: ops =>
      (match op with
       | .register c => if c ∈ s then 0 else 1
       | .unregister _ => 0) + effectiveRegs (hubStep s op).1 ops

/-- Number of unregisters in a request sequence whose argument was in the
live set when serviced. -/
def effectiveUnregs : List Client → List HubOp → Nat
  | _, [] => 0
  | s, op :: ops =>
      (match op with
       | .register _ => 0
       | .unregister c => if c ∈ s then 1 else 0) + effectiveUnregs (hubStep s op).1 ops

/-- Total number of register requests in a sequence. -/
def regCount (ops : List HubOp) : Nat :=
  ops.countP fun op => match op with | .register _ => true | .unregister _ => false

/-- The client an operation refers to. -/
def clientOf : HubOp → Client
  | .register c => c
  | .unregister c => c

/-- Payload condition under which `handleNicknameUpdated` logs and returns
before any send: non-map payload, missing `user_id`, or `user_id` of an
unsupported type. -/
def nicknameDropped : GoData → Bool
  | .prim _ => true
  | .map m =>
    match lookupKey m "user_id" with
    | none => true
    | some v => (goToUInt64 v).isNone

/-- Payload condition under which `handleThreadCreated` logs and returns
before any send: non-map payload or a missing required key. -/
def threadDropped : GoData → Bool
  | .prim _ => true
  | .map m =>
      (lookupKey m "timestamp").isNone || (lookupKey m "thread_id").isNone ||
        (lookupKey m "board_id").isNone

/-- Payload condition under which `handleMessageCreated` logs and returns
before any send: non-map payload or a missing required key. -/
def messageDropped : GoData → Bool
  | .prim _ => true
  | .map m =>
      (lookupKey m "timestamp").isNone || (lookupKey m "message_id").isNone ||
        (lookupKey m "thread_id").isNone

/-- Session-close attempts recorded for session id `sid`. -/
def sessionCloseCount (es : List Effect) (sid : Nat) : Nat :=
  es.countP fun e => match e with
    | .sessionClose s => s == sid
    | .cacheDelete _ _ => false

/-- Cache-invalidation attempts recorded for the pair `(uid, sid)`. -/
def cacheDeleteCount (es : List Effect) (uid sid : Nat) : Nat :=
  es.countP fun e => match e with
    | .sessionClose _ => false
    | .cacheDelete u s => u == uid && s == sid

/-- A sample connection: user 1, session 10. -/
def cA : Client := ⟨"a", 10, 1, "ka"⟩

/-- A sample connection for a different user: user 2, session 20. -/
def cB : Client := ⟨"b", 20, 2, "kb"⟩

/-- A bus whose delivery channel holds 100 pending events (saturated). -/
def ebFull : EventBus := ⟨[], List.replicate 100 ⟨"e", .prim .vNull⟩⟩

/-- A well-formed `thread_created` payload. -/
def threadEv : Event :=
  ⟨"thread_created",
   .map [("thread_id", .vUInt64 7), ("board_id", .vUInt64 2), ("timestamp", .vUInt64 3)]⟩

/-- A `nickname_updated` payload carrying `user_id` and `nickname`. -/
def nickEv : Event :=
  ⟨"nickname_updated", .map [("user_id", .vUInt64 1), ("nickname", .vStr "Fox")]⟩

/-- A `nickname_updated` payload carrying only `user_id` (no `nickname`). -/
def nickEvNoNick : Event :=
  ⟨"nickname_updated", .map [("user_id", .vUInt64 1)]⟩

/-- The coordinator goroutine dispatching one domain event from its event
channel (`case event := <-eventCh: h.handleEvent(event)` in `Hub.Run`),
together with Go channel semantics for the handler's failure path: the
handler runs on the coordinator goroutine itself; if the dispatch performed
a synchronous `h.unregister <- client` send during its iteration
(`syncUnregs ≠ []`), that send blocks forever — `unregister` is unbuffered
(`make(chan *Client)`) and its only receiver is this very goroutine — so the
loop never returns to its select, the pending register/unregister requests
are never serviced, and no disconnect side effect is ever scheduled.
Otherwise the loop continues and services the pending requests. -/
def coordinatorDispatch (clients : List Client) (sendOk : Client → Bool)
    (ev : Event) (pending : List HubOp) : List Effect :=
  if (handleEvent clients sendOk ev).syncUnregs = [] then
    (hubRun clients pending).2
  else []

/-- C1: during dispatch of a domain event, the broadcast loops do NOT defer
removal of a dead connection: for a hub with one live client whose send
fails, both `handleThreadCreated` and `handleNicknameUpdated` perform the
synchronous channel send `h.unregister <- client` inside the iteration
(`syncUnregs = [cA]`), delivering nothing and recording no deferred removal.
Since `h.unregister` is an unbuffered channel whose only consumer is the
`Hub.Run` goroutine that is executing this very handler, the send blocks
forever: the code contradicts the specified (and explicitly motivated)
requirement, so this evaluates the code at the failing input. -/
theorem thread_broadcast_failure_sync_unregister :
    (handleThreadCreated [cA] (fun _ => false) threadEv).syncUnregs = [cA] ∧
    (handleThreadCreated [cA] (fun _ => false) threadEv).sends = [] ∧
    (handleNicknameUpdated [cA] (fun _ => false) nickEvNoNick).syncUnregs = [cA] := by
  decide

/-- C4: `Publish` never blocks and never signals an error: for every bus
state, kind and payload, when the delivery queue is saturated the call
returns with the bus unchanged and performs no handler invocation (the event
is dropped), and otherwise it appends exactly the published event to the
queue.  The return shape `EventBus × List Nat` carries no error component,
matching the Go signature `func (eb *EventBus) Publish(event string, data
interface{})` which returns nothing. -/
theorem publish_nonblocking_lossy (eb : EventBus) (kind : String) (d : GoData) :
    (busCapacity ≤ eb.queue.length → publish eb kind d = (eb, [])) ∧
    (eb.queue.length < busCapacity →
      (publish eb kind d).1.queue = eb.queue ++ [⟨kind, d⟩] ∧
        (publish eb kind d).2 = []) := by
  constructor
  · intro hfull
    simp [publish, Nat.not_lt.mpr hfull]
  · intro hlt
    simp [publish, hlt]

/-- Witness for C4 at a saturated bus and at the empty bus. -/
theorem publish_nonblocking_lossy_witness :
    publish ebFull "x" (.prim .vNull) = (ebFull, []) ∧
    (publish newEventBus "x" (.prim .vNull)).1.queue
      = newEventBus.queue ++ [⟨"x", .prim .vNull⟩] := by
  refine ⟨(publish_nonblocking_lossy ebFull "x" (.prim .vNull)).1 ?_,
    ((publish_nonblocking_lossy newEventBus "x" (.prim .vNull)).2 ?_).1⟩
  · simp [ebFull, busCapacity]
  · simp [newEventBus, busCapacity]

/-- C10: the delivery queue's capacity is exactly 100: for every reachable
bus state (at most 100 pending events), a publish leaves the queue unchanged
(drops its event) precisely when 100 published-but-unconsumed events are
pending, and the pending count never exceeds 100. -/
theorem queue_capacity_hundred (eb : EventBus) (kind : String) (d : GoData)
    (hinv : eb.queue.length ≤ busCapacity) :
    busCapacity = 100 ∧
    ((publish eb kind d).1.queue = eb.queue ↔ eb.queue.length = busCapacity) ∧
    (publish eb kind d).1.queue.length ≤ busCapacity := by
  refine ⟨rfl, ?_, ?_⟩
  · by_cases hlt : eb.queue.length < busCapacity
    · simp only [publish, if_pos hlt]
      constructor
      · intro h
        have := congrArg List.length h
        simp at this
      · intro h
        omega
    · simp only [publish, if_neg hlt]
      simp
      omega
  · by_cases hlt : eb.queue.length < busCapacity
    · simp only [publish, if_pos hlt]
      simp
      omega
    · simp only [publish, if_neg hlt]
      omega

/-- Witness for C10 at the empty bus. -/
theorem queue_capacity_hundred_witness :
    busCapacity = 100 ∧
    ((publish newEventBus "x" (.prim .vNull)).1.queue = newEventBus.queue ↔
      newEventBus.queue.length = busCapacity) ∧
    (publish newEventBus "x" (.prim .vNull)).1.queue.length ≤ busCapacity :=
  queue_capacity_hundred newEventBus "x" (.prim .vNull) (by simp [newEventBus, busCapacity])

/-- Appending a handler under a kind extends that kind's handler slice on
the right and removes nothing. -/
theorem handlersLookup_addHandler (subs : List (String × List Nat))
    (ev : String) (h : Nat) :
    handlersLookup (addHandler subs ev h) ev = handlersLookup subs ev ++ [h] := by
  induction subs with
  | nil => simp [addHandler, handlersLookup]
  | cons p rest ih =>
    obtain ⟨ev', hs⟩ := p
    by_cases hev : ev' = ev
    · subst hev
      simp [addHandler, handlersLookup]
    · simp [addHandler, handlersLookup, hev, ih]

/-- Publish performs no handler invocation, whatever the bus state. -/
theorem publish_invokes_nothing (eb : EventBus) (kind : String) (d : GoData) :
    (publish eb kind d).2 = [] := by
  unfold publish
  split <;> rfl

/-- C5 counterexample: on a fresh bus, register a handler (id 0) for
`thread_created` exactly as `NewHub` does, then publish a `thread_created`
event.  The handler is recorded, yet the publish call performs zero handler
invocations — `Publish`'s body never reads `eb.subscribers` — refuting
"each registered handler runs as part of the publish call". -/
theorem publish_no_callback_cex :
    handlersOf (subscribe newEventBus "thread_created" 0) "thread_created" = [0] ∧
    (publish (subscribe newEventBus "thread_created" 0) "thread_created"
      (.prim .vNull)).2 = [] := by
  decide

/-- C5 amended: `Subscribe` records the handler (appending it to the kind's
slice, removing nothing), but `Publish` never invokes any registered handler
on the publishing code path; a publish with queue room only appends the
event to the queue consumed via `SubscribeCh`. -/
theorem subscribe_records_publish_no_callback (eb : EventBus) (kind : String)
    (h : Nat) (d : GoData) :
    handlersOf (subscribe eb kind h) kind = handlersOf eb kind ++ [h] ∧
    (publish (subscribe eb kind h) kind d).2 = [] ∧
    ((subscribe eb kind h).queue.length < busCapacity →
      (publish (subscribe eb kind h) kind d).1.queue = eb.queue ++ [⟨kind, d⟩]) := by
  refine ⟨handlersLookup_addHandler eb.subscribers kind h,
    publish_invokes_nothing _ kind d, ?_⟩
  intro hroom
  have hroom' : eb.queue.length < busCapacity := hroom
  simp [publish, subscribe, if_pos hroom']

/-- Witness for C5's amended theorem at a fresh bus. -/
theorem subscribe_records_publish_no_callback_witness :
    handlersOf (subscribe newEventBus "x" 5) "x" = handlersOf newEventBus "x" ++ [5] ∧
    (publish (subscribe newEventBus "x" 5) "x" (.prim .vNull)).2 = [] ∧
    (publish (subscribe newEventBus "x" 5) "x" (.prim .vNull)).1.queue
      = newEventBus.queue ++ [⟨"x", .prim .vNull⟩] :=
  ⟨(subscribe_records_publish_no_callback newEventBus "x" 5 (.prim .vNull)).1,
   (subscribe_records_publish_no_callback newEventBus "x" 5 (.prim .vNull)).2.1,
   (subscribe_records_publish_no_callback newEventBus "x" 5 (.prim .vNull)).2.2
     (by simp [subscribe, newEventBus, busCapacity])⟩

/-- C6 counterexample: wire a fresh bus exactly as `NewHub` does (all four
kinds subscribed with callbacks, channel consumed by `Hub.Run`), then
publish one `thread_created` event.  The coordinator's dispatch logic
processes it exactly once — zero callback invocations plus one queued copy —
not twice as claimed. -/
theorem dual_mode_single_processing_cex :
    handlersOf (hubWireBus newEventBus) "thread_created" = [1] ∧
    publishProcessCount (hubWireBus newEventBus) "thread_created" (.prim .vNull) = 1 ∧
    publishProcessCount (hubWireBus newEventBus) "thread_created" (.prim .vNull) ≠ 2 := by
  decide

/-- C6 amended: even with the hub's dual wiring (callback subscriptions for
all four kinds plus the queue consumer), a publish with queue room is
processed exactly once by the coordinator's dispatch logic, via the queue
consumer only. -/
theorem dual_mode_processed_once (eb : EventBus) (kind : String) (d : GoData)
    (hroom : eb.queue.length < busCapacity) :
    publishProcessCount (hubWireBus eb) kind d = 1 := by
  have hq : (hubWireBus eb).queue = eb.queue := rfl
  simp [publishProcessCount, publish, hq, if_pos hroom]

/-- Witness for C6's amended theorem at a fresh bus. -/
theorem dual_mode_processed_once_witness :
    publishProcessCount (hubWireBus newEventBus) "message_created" (.prim .vNull) = 1 :=
  dual_mode_processed_once newEventBus "message_created" (.prim .vNull)
    (by simp [newEventBus, busCapacity])

/-- Map write then read on a wire message: reading the written key sees the
new value, other keys are untouched. -/
theorem lookupWire_setKey (m : WireMsg) (k q : String) (v : GoData) :
    lookupWire (setKey m k v) q = if k = q then some v else lookupWire m q := by
  induction m with
  | nil => simp [setKey, lookupWire]
  | cons e rest ih =>
    obtain ⟨k', v'⟩ := e
    by_cases hk : k' = k
    · subst hk
      by_cases hq : k' = q <;> simp [setKey, lookupWire, hq]
    · by_cases hq : k' = q
      · subst hq
        have : ¬ k = k' := fun h => hk h.symm
        simp [setKey, lookupWire, hk, this]
      · simp [setKey, lookupWire, hk, hq, ih]

/-- Folding map writes over a wire message never removes a key that was
present. -/
theorem lookupWire_foldl_setKey (l : List (String × GoValue)) (base : WireMsg)
    (q : String) (hbase : (lookupWire base q).isSome = true) :
    (lookupWire (l.foldl (fun m e => setKey m e.1 (GoData.prim e.2)) base) q).isSome
      = true := by
  induction l generalizing base with
  | nil => simpa using hbase
  | cons e rest ih =>
    simp only [List.foldl_cons]
    apply ih
    rw [lookupWire_setKey]
    by_cases he : e.1 = q <;> simp [he, hbase]

/-- Every message sent by the broadcast loop is the message it was given. -/
theorem broadcastLoop_sends_msg (msg : WireMsg) (f : Client → Bool)
    (cs : List Client) (c : Client) (m : WireMsg)
    (hmem : (c, m) ∈ (broadcastLoop msg f cs).sends) : m = msg := by
  induction cs with
  | nil => simp [broadcastLoop] at hmem
  | cons c' cs' ih =>
    by_cases hf : f c' = true
    · simp only [broadcastLoop, hf, if_pos] at hmem
      rcases List.mem_cons.mp hmem with h | h
      · exact congrArg Prod.snd (h : (c, m) = (c', msg))
      · exact ih h
    · simp only [broadcastLoop, hf] at hmem
      simp at hmem
      exact ih hmem

/-- Every message sent by the targeted loop is the message it was given. -/
theorem targetedLoop_sends_msg (u : Nat) (msg : WireMsg) (f : Client → Bool)
    (cs : List Client) (c : Client) (m : WireMsg)
    (hmem : (c, m) ∈ (targetedLoop u msg f cs).sends) : m = msg := by
  induction cs with
  | nil => simp [targetedLoop] at hmem
  | cons c' cs' ih =>
    by_cases hu : c'.userID = u
    · by_cases hf : f c' = true
      · simp only [targetedLoop, hu, hf, if_pos] at hmem
        rcases List.mem_cons.mp hmem with h | h
        · exact congrArg Prod.snd (h : (c, m) = (c', msg))
        · exact ih h
      · simp only [targetedLoop, hu, hf] at hmem
        simp at hmem
        exact ih hmem
    · simp only [targetedLoop, hu] at hmem
      simp at hmem
      exact ih hmem

/-- Messages sent by `handleNicknameUpdated` carry `event` (with the
discriminator value) and `timestamp`. -/
theorem nickname_sends_fields (clients : List Client) (f : Client → Bool)
    (ev : Event) (c : Client) (m : WireMsg)
    (hmem : (c, m) ∈ (handleNicknameUpdated clients f ev).sends) :
    lookupWire m "event" = some (.prim (.vStr "nickname_updated")) ∧
    (lookupWire m "timestamp").isSome = true := by
  rcases hd : ev.data with v | data
  · simp [handleNicknameUpdated, hd, emptyResult] at hmem
  · rcases hu : lookupKey data "user_id" with _ | raw
    · simp [handleNicknameUpdated, hd, hu, emptyResult] at hmem
    · rcases hn : goToUInt64 raw with _ | u
      · simp [handleNicknameUpdated, hd, hu, hn, emptyResult] at hmem
      · simp only [handleNicknameUpdated, hd, hu, hn] at hmem
        have := targetedLoop_sends_msg _ _ _ _ _ _ hmem
        subst this
        exact ⟨rfl, rfl⟩

/-- Messages sent by `handleThreadCreated` carry `event` and `timestamp`. -/
theorem thread_sends_fields (clients : List Client) (f : Client → Bool)
    (ev : Event) (c : Client) (m : WireMsg)
    (hmem : (c, m) ∈ (handleThreadCreated clients f ev).sends) :
    (lookupWire m "event").isSome = true ∧
    (lookupWire m "timestamp").isSome = true := by
  rcases hd : ev.data with v | data
  · simp [handleThreadCreated, hd, emptyResult] at hmem
  · rcases ht : lookupKey data "timestamp" with _ | ts
    · simp [handleThreadCreated, hd, ht, emptyResult] at hmem
    · rcases hti : lookupKey data "thread_id" with _ | tid
      · simp [handleThreadCreated, hd, ht, hti, emptyResult] at hmem
      · rcases hb : lookupKey data "board_id" with _ | bid
        · simp [handleThreadCreated, hd, ht, hti, hb, emptyResult] at hmem
        · simp only [handleThreadCreated, hd, ht, hti, hb] at hmem
          have := broadcastLoop_sends_msg _ _ _ _ _ hmem
          subst this
          exact ⟨lookupWire_foldl_setKey _ _ _ rfl, lookupWire_foldl_setKey _ _ _ rfl⟩

/-- Messages sent by `handleMessageCreated` carry `event` and `timestamp`. -/
theorem message_sends_fields (clients : List Client) (f : Client → Bool)
    (ev : Event) (c : Client) (m : WireMsg)
    (hmem : (c, m) ∈ (handleMessageCreated clients f ev).sends) :
    (lookupWire m "event").isSome = true ∧
    (lookupWire m "timestamp").isSome = true := by
  rcases hd : ev.data with v | data
  · simp [handleMessageCreated, hd, emptyResult] at hmem
  · rcases ht : lookupKey data "timestamp" with _ | ts
    · simp [handleMessageCreated, hd, ht, emptyResult] at hmem
    · rcases hmi : lookupKey data "message_id" with _ | mid
      · simp [handleMessageCreated, hd, ht, hmi, emptyResult] at hmem
      · rcases hti : lookupKey data "thread_id" with _ | tid
        · simp [handleMessageCreated, hd, ht, hmi, hti, emptyResult] at hmem
        · simp only [handleMessageCreated, hd, ht, hmi, hti] at hmem
          have := broadcastLoop_sends_msg _ _ _ _ _ hmem
          subst this
          exact ⟨lookupWire_foldl_setKey _ _ _ rfl, lookupWire_foldl_setKey _ _ _ rfl⟩

/-- C7 counterexample: a `stats_updated` dispatch to one live client sends a
message that has an `event` field but NO `timestamp` field: the claim that
every outbound message — including `stats_updated` — carries a `timestamp`
is false on the code (`handleStatsUpdated` builds only `{event, data}`). -/
theorem stats_updated_no_timestamp_cex :
    (handleStatsUpdated [cA] (fun _ => true) ⟨"stats_updated", .prim .vNull⟩).sends
      = [(cA, statsMsg (.prim .vNull))] ∧
    lookupWire (statsMsg (.prim .vNull)) "event"
      = some (.prim (.vStr "stats_updated")) ∧
    lookupWire (statsMsg (.prim .vNull)) "timestamp" = none := by
  decide

/-- C7 amended: every outbound wire message produced by the coordinator's
dispatch carries an `event` discriminator field, and the messages of the
three validated kinds (`nickname_updated`, `thread_created`,
`message_created`) also carry a `timestamp` field; `stats_updated` messages
carry only `event` and `data`. -/
theorem wire_msg_fields (clients : List Client) (sendOk : Client → Bool)
    (ev : Event) (c : Client) (m : WireMsg)
    (hmem : (c, m) ∈ (handleEvent clients sendOk ev).sends) :
    lookupWire m "event" ≠ none ∧
    (ev.event ≠ "stats_updated" → lookupWire m "timestamp" ≠ none) := by
  unfold handleEvent at hmem
  split_ifs at hmem with h1 h2 h3 h4
  · have hf := nickname_sends_fields clients sendOk ev c m hmem
    refine ⟨by simp [hf.1], fun _ => ?_⟩
    rw [Option.ne_none_iff_isSome]
    exact hf.2
  · have hf := thread_sends_fields clients sendOk ev c m hmem
    refine ⟨by rw [Option.ne_none_iff_isSome]; exact hf.1, fun _ => ?_⟩
    rw [Option.ne_none_iff_isSome]
    exact hf.2
  · have hf := message_sends_fields clients sendOk ev c m hmem
    refine ⟨by rw [Option.ne_none_iff_isSome]; exact hf.1, fun _ => ?_⟩
    rw [Option.ne_none_iff_isSome]
    exact hf.2
  · have := broadcastLoop_sends_msg _ _ _ _ _ hmem
    subst this
    exact ⟨by simp [statsMsg, lookupWire], fun hne => absurd h4 hne⟩
  · simp [emptyResult] at hmem

/-- Witness for C7's amended theorem: a concrete `thread_created` dispatch. -/
theorem wire_msg_fields_witness :
    lookupWire (threadCreatedMsg
      [("thread_id", .vUInt64 7), ("board_id", .vUInt64 2), ("timestamp", .vUInt64 3)]
      (.vUInt64 7) (.vUInt64 2) (.vUInt64 3)) "event" ≠ none ∧
    (threadEv.event ≠ "stats_updated" →
      lookupWire (threadCreatedMsg
        [("thread_id", .vUInt64 7), ("board_id", .vUInt64 2), ("timestamp", .vUInt64 3)]
        (.vUInt64 7) (.vUInt64 2) (.vUInt64 3)) "timestamp" ≠ none) :=
  wire_msg_fields [cA] (fun _ => true) threadEv cA _ (by decide)

/-- When every send succeeds, the targeted loop sends the message to exactly
the clients whose `UserID` matches, in order, and fails nobody. -/
theorem targetedLoop_all_ok (u : Nat) (msg : WireMsg) (f : Client → Bool)
    (cs : List Client) (hok : ∀ c ∈ cs, f c = true) :
    targetedLoop u msg f cs =
      ⟨(cs.filter fun c => c.userID == u).map (fun c => (c, msg)), []⟩ := by
  induction cs with
  | nil => simp [targetedLoop]
  | cons c cs' ih =>
    have hfc : f c = true := hok c (List.mem_cons_self c cs')
    have hrest : ∀ d ∈ cs', f d = true := fun d hd => hok d (List.mem_cons_of_mem c hd)
    by_cases hu : c.userID = u
    · simp only [targetedLoop, hu, if_pos, hfc, ih hrest]
      simp [List.filter_cons, hu]
    · simp only [targetedLoop, hu, ih hrest]
      have : (c.userID == u) = false := by simp [hu]
      simp [List.filter_cons, this, if_neg hu]

/-- Every recipient the targeted loop sends to has the matching user id. -/
theorem targetedLoop_sends_user (u : Nat) (msg : WireMsg) (f : Client → Bool)
    (cs : List Client) :
    ∀ p ∈ (targetedLoop u msg f cs).sends, p.1.userID = u := by
  induction cs with
  | nil =>
    intro p hp
    simp [targetedLoop] at hp
  | cons c cs' ih =>
    intro p hp
    by_cases hc : c.userID = u
    · by_cases hf : f c = true
      · simp only [targetedLoop, hc, hf, if_pos] at hp
        rcases List.mem_cons.mp hp with h | h
        · rw [show p.1 = c from congrArg Prod.fst h]
          exact hc
        · exact ih p h
      · simp only [targetedLoop, hc, hf] at hp
        simp at hp
        exact ih p hp
    · simp only [targetedLoop, hc] at hp
      simp at hp
      exact ih p hp

/-- C3: for every `nickname_updated` event whose payload resolves to user id
`u`, no connection owned by another user ever receives the message, and when
the endpoints accept the writes the wire message is delivered exactly to the
live connections owned by user `u` (each exactly once, with the built
message), however many other connections are live. -/
theorem nickname_targeted_delivery (clients : List Client) (sendOk : Client → Bool)
    (data : List (String × GoValue)) (raw : GoValue) (u : Nat)
    (hraw : lookupKey data "user_id" = some raw)
    (hu : goToUInt64 raw = some u) :
    (∀ p ∈ (handleNicknameUpdated clients sendOk
        ⟨"nickname_updated", .map data⟩).sends, p.1.userID = u) ∧
    ((∀ c ∈ clients, sendOk c = true) →
      (handleNicknameUpdated clients sendOk ⟨"nickname_updated", .map data⟩).sends
        = (clients.filter fun c => c.userID == u).map
            (fun c => (c, nicknameMsg u (goNickname data) (goTimestamp data)))) := by
  constructor
  · simp only [handleNicknameUpdated, hraw, hu]
    exact targetedLoop_sends_user _ _ _ _
  · intro hok
    simp only [handleNicknameUpdated, hraw, hu]
    rw [targetedLoop_all_ok _ _ _ _ hok]

/-- Witness for C3: users 1 and 2 live, an event for user 1. -/
theorem nickname_targeted_delivery_witness :
    (handleNicknameUpdated [cA, cB] (fun _ => true)
      ⟨"nickname_updated", .map [("user_id", .vUInt64 1), ("nickname", .vStr "Fox")]⟩).sends
      = ([cA, cB].filter fun c => c.userID == 1).map
          (fun c => (c, nicknameMsg 1
            (goNickname [("user_id", .vUInt64 1), ("nickname", .vStr "Fox")])
            (goTimestamp [("user_id", .vUInt64 1), ("nickname", .vStr "Fox")]))) :=
  (nickname_targeted_delivery [cA, cB] (fun _ => true)
    [("user_id", .vUInt64 1), ("nickname", .vStr "Fox")] (.vUInt64 1) 1
    (by decide) (by decide)).2 (fun c _ => rfl)

/-- A `nickname_updated` dispatch whose payload fails the `user_id`
validation is dropped before any send. -/
theorem nickname_dropped_empty (clients : List Client) (f : Client → Bool)
    (ev : Event) (h : nicknameDropped ev.data = true) :
    handleNicknameUpdated clients f ev = emptyResult := by
  rcases hd : ev.data with v | m
  · simp [handleNicknameUpdated, hd]
  · rw [hd] at h
    simp only [nicknameDropped] at h
    rcases hu : lookupKey m "user_id" with _ | raw
    · simp [handleNicknameUpdated, hd, hu]
    · simp only [hu] at h
      rcases hg : goToUInt64 raw with _ | u
      · simp [handleNicknameUpdated, hd, hu, hg]
      · rw [hg] at h
        simp at h

/-- A `thread_created` dispatch missing a required key is dropped before any
send. -/
theorem thread_dropped_empty (clients : List Client) (f : Client → Bool)
    (ev : Event) (h : threadDropped ev.data = true) :
    handleThreadCreated clients f ev = emptyResult := by
  rcases hd : ev.data with v | m
  · simp [handleThreadCreated, hd]
  · rw [hd] at h
    simp only [threadDropped] at h
    rcases ht : lookupKey m "timestamp" with _ | ts
    · simp [handleThreadCreated, hd, ht]
    · rcases hti : lookupKey m "thread_id" with _ | tid
      · simp [handleThreadCreated, hd, ht, hti]
      · rcases hb : lookupKey m "board_id" with _ | bid
        · simp [handleThreadCreated, hd, ht, hti, hb]
        · rw [ht, hti, hb] at h
          simp at h

/-- A `message_created` dispatch missing a required key is dropped before
any send. -/
theorem message_dropped_empty (clients : List Client) (f : Client → Bool)
    (ev : Event) (h : messageDropped ev.data = true) :
    handleMessageCreated clients f ev = emptyResult := by
  rcases hd : ev.data with v | m
  · simp [handleMessageCreated, hd]
  · rw [hd] at h
    simp only [messageDropped] at h
    rcases ht : lookupKey m "timestamp" with _ | ts
    · simp [handleMessageCreated, hd, ht]
    · rcases hmi : lookupKey m "message_id" with _ | mid
      · simp [handleMessageCreated, hd, ht, hmi]
      · rcases hti : lookupKey m "thread_id" with _ | tid
        · simp [handleMessageCreated, hd, ht, hmi, hti]
        · rw [ht, hmi, hti] at h
          simp at h

/-- C8 counterexample: a `nickname_updated` event whose payload lacks the
`nickname` key is NOT dropped: with a matching live connection it is
delivered (with an empty-string nickname and a null timestamp), refuting the
claim that `nickname` is a required field whose absence drops the event. -/
theorem nickname_missing_field_delivered_cex :
    nickEvNoNick.event = "nickname_updated" ∧
    lookupKey [("user_id", .vUInt64 1)] "nickname" = none ∧
    (handleEvent [cA] (fun _ => true) nickEvNoNick).sends
      = [(cA, nicknameMsg 1 "" .vNull)] ∧
    (handleEvent [cA] (fun _ => true) nickEvNoNick).sends ≠ [] := by
  decide

/-- C8 amended: an event of unrecognized kind, a `nickname_updated` event
without a usable `user_id`, a `thread_created` event missing any of
`thread_id`/`board_id`/`timestamp`, or a `message_created` event missing any
of `message_id`/`thread_id`/`timestamp` is logged and dropped: the dispatch
delivers nothing to any connection and initiates no unregister (the
coordinator continues; for `nickname_updated`, missing `nickname` or
`timestamp` is not fatal — defaults are substituted). -/
theorem malformed_event_dropped (clients : List Client) (sendOk : Client → Bool)
    (ev : Event)
    (h : (ev.event ≠ "nickname_updated" ∧ ev.event ≠ "thread_created" ∧
            ev.event ≠ "message_created" ∧ ev.event ≠ "stats_updated")
       ∨ (ev.event = "nickname_updated" ∧ nicknameDropped ev.data = true)
       ∨ (ev.event = "thread_created" ∧ threadDropped ev.data = true)
       ∨ (ev.event = "message_created" ∧ messageDropped ev.data = true)) :
    handleEvent clients sendOk ev = emptyResult := by
  unfold handleEvent
  rcases h with ⟨h1, h2, h3, h4⟩ | ⟨he, hm⟩ | ⟨he, hm⟩ | ⟨he, hm⟩
  · simp [h1, h2, h3, h4]
  · rw [if_pos he]
    exact nickname_dropped_empty clients sendOk ev hm
  · have hne : ev.event ≠ "nickname_updated" := by rw [he]; decide
    rw [if_neg hne, if_pos he]
    exact thread_dropped_empty clients sendOk ev hm
  · have hne : ev.event ≠ "nickname_updated" := by rw [he]; decide
    have hne' : ev.event ≠ "thread_created" := by rw [he]; decide
    rw [if_neg hne, if_neg hne', if_pos he]
    exact message_dropped_empty clients sendOk ev hm

/-- Witness for C8's amended theorem: an unrecognized kind is dropped. -/
theorem malformed_event_dropped_witness :
    handleEvent [cA] (fun _ => true) ⟨"bogus_kind", .prim .vNull⟩ = emptyResult :=
  malformed_event_dropped [cA] (fun _ => true) ⟨"bogus_kind", .prim .vNull⟩
    (Or.inl (by decide))

/-- One coordinator step keeps the live set duplicate-free. -/
theorem hubStep_nodup (s : List Client) (op : HubOp) (h : s.Nodup) :
    (hubStep s op).1.Nodup := by
  cases op with
  | register c =>
    by_cases hc : c ∈ s
    · simpa [hubStep, hc]
    · simp only [hubStep, hc, if_neg]
      exact List.nodup_cons.mpr ⟨hc, h⟩
  | unregister c =>
    by_cases hc : c ∈ s
    · simp only [hubStep, hc, if_pos]
      exact h.erase c
    · simpa [hubStep, hc]

/-- Servicing a request sequence keeps the live set duplicate-free. -/
theorem hubRun_nodup (ops : List HubOp) :
    ∀ s : List Client, s.Nodup → (hubRun s ops).1.Nodup := by
  induction ops with
  | nil => intro s hs; simpa [hubRun]
  | cons op ops ih => intro s hs; exact ih _ (hubStep_nodup s op hs)

/-- Size accounting for the coordinator loop: over any request sequence the
final live count plus the number of unregisters of live connections equals
the initial count plus the number of registers of not-yet-live connections. -/
theorem hubRun_length (ops : List HubOp) :
    ∀ s : List Client, s.Nodup →
      (hubRun s ops).1.length + effectiveUnregs s ops
        = s.length + effectiveRegs s ops := by
  induction ops with
  | nil => intro s _; simp [hubRun, effectiveUnregs, effectiveRegs]
  | cons op ops ih =>
    intro s hs
    have ihs := ih (hubStep s op).1 (hubStep_nodup s op hs)
    cases op with
    | register c =>
      by_cases hc : c ∈ s
      · simp only [hubRun, hubStep, effectiveUnregs, effectiveRegs, if_pos hc] at ihs ⊢
        omega
      · simp only [hubRun, hubStep, effectiveUnregs, effectiveRegs, if_neg hc] at ihs ⊢
        simp only [List.length_cons] at ihs
        omega
    | unregister c =>
      by_cases hc : c ∈ s
      · have hlen : (s.erase c).length = s.length - 1 := List.length_erase_of_mem hc
        have hpos : 0 < s.length := List.length_pos_of_mem hc
        simp only [hubRun, hubStep, effectiveUnregs, effectiveRegs, if_pos hc] at ihs ⊢
        rw [hlen] at ihs
        omega
      · simp only [hubRun, hubStep, effectiveUnregs, effectiveRegs, if_neg hc] at ihs ⊢
        omega

/-- C2 counterexample: the request sequence that registers the same
connection twice refutes the claimed formula: it contains 2 registers and 0
unregisters-of-live-connections, yet the live set afterwards has size 1, not
2 − 0 (the hub's `map[*Client]bool` insert is idempotent). -/
theorem live_count_double_register_cex :
    regCount [HubOp.register cA, HubOp.register cA] = 2 ∧
    effectiveUnregs [] [HubOp.register cA, HubOp.register cA] = 0 ∧
    (hubRun [] [HubOp.register cA, HubOp.register cA]).1.length = 1 ∧
    (1 : Nat) ≠ 2 - 0 := by
  decide

/-- C2 amended: for every request sequence applied to an initially empty
hub, the final live-set size equals the number of registers whose argument
was not already live minus the number of unregisters whose argument was live
(stated additively), and unregistering an absent connection is a no-op with
no side effects. -/
theorem live_count_effective (ops : List HubOp) :
    ((hubRun [] ops).1.length + effectiveUnregs [] ops = effectiveRegs [] ops) ∧
    (∀ s : List Client, ∀ c : Client, c ∉ s →
      hubStep s (HubOp.unregister c) = (s, [])) := by
  constructor
  · simpa using hubRun_length ops [] List.nodup_nil
  · intro s c hc
    simp [hubStep, hc]

/-- Witness for C2's amended theorem on a concrete sequence. -/
theorem live_count_effective_witness :
    ((hubRun [] [HubOp.register cA, HubOp.unregister cA, HubOp.unregister cA]).1.length
        + effectiveUnregs [] [HubOp.register cA, HubOp.unregister cA, HubOp.unregister cA]
      = effectiveRegs [] [HubOp.register cA, HubOp.unregister cA, HubOp.unregister cA]) ∧
    hubStep [] (HubOp.unregister cB) = ([], []) :=
  ⟨(live_count_effective [HubOp.register cA, HubOp.unregister cA, HubOp.unregister cA]).1,
   (live_count_effective [HubOp.register cA, HubOp.unregister cA, HubOp.unregister cA]).2
     [] cB (by decide)⟩

/-- Unfolding: the live set after servicing a cons sequence. -/
theorem hubRun_fst_cons (s : List Client) (op : HubOp) (ops : List HubOp) :
    (hubRun s (op :: ops)).1 = (hubRun (hubStep s op).1 ops).1 := rfl

/-- Unfolding: the effects scheduled while servicing a cons sequence. -/
theorem hubRun_snd_cons (s : List Client) (op : HubOp) (ops : List HubOp) :
    (hubRun s (op :: ops)).2 = (hubStep s op).2 ++ (hubRun (hubStep s op).1 ops).2 := rfl

/-- Servicing a split request sequence: the second half starts from the
state the first half reaches. -/
theorem hubRun_fst_append (xs ys : List HubOp) (s : List Client) :
    (hubRun s (xs ++ ys)).1 = (hubRun (hubRun s xs).1 ys).1 := by
  induction xs generalizing s with
  | nil => rfl
  | cons op xs ih => simp only [List.cons_append, hubRun_fst_cons, ih]

/-- Servicing a split request sequence concatenates the scheduled effects. -/
theorem hubRun_snd_append (xs ys : List HubOp) (s : List Client) :
    (hubRun s (xs ++ ys)).2 = (hubRun s xs).2 ++ (hubRun (hubRun s xs).1 ys).2 := by
  induction xs generalizing s with
  | nil => rfl
  | cons op xs ih =>
    simp only [List.cons_append, hubRun_snd_cons, hubRun_fst_cons, ih, List.append_assoc]

/-- Session-close counting distributes over effect concatenation. -/
theorem sessionCloseCount_append (a b : List Effect) (sid : Nat) :
    sessionCloseCount (a ++ b) sid = sessionCloseCount a sid + sessionCloseCount b sid := by
  simp [sessionCloseCount, List.countP_append]

/-- Cache-delete counting distributes over effect concatenation. -/
theorem cacheDeleteCount_append (a b : List Effect) (uid sid : Nat) :
    cacheDeleteCount (a ++ b) uid sid
      = cacheDeleteCount a uid sid + cacheDeleteCount b uid sid := by
  simp [cacheDeleteCount, List.countP_append]

/-- Session-close count of the effect pair one disconnect schedules. -/
theorem sessionCloseCount_pair (d : Client) (sid : Nat) :
    sessionCloseCount [Effect.sessionClose d.sessionID,
      Effect.cacheDelete d.userID d.sessionID] sid
      = if d.sessionID = sid then 1 else 0 := by
  by_cases h : d.sessionID = sid <;>
    simp [sessionCloseCount, List.countP_cons, h]

/-- Cache-delete count of the effect pair one disconnect schedules. -/
theorem cacheDeleteCount_pair (d : Client) (uid sid : Nat) :
    cacheDeleteCount [Effect.sessionClose d.sessionID,
      Effect.cacheDelete d.userID d.sessionID] uid sid
      = if d.userID = uid ∧ d.sessionID = sid then 1 else 0 := by
  by_cases h1 : d.userID = uid <;> by_cases h2 : d.sessionID = sid <;>
    simp [cacheDeleteCount, List.countP_cons, h1, h2]

/-- While a connection is absent from the live set and never registered, a
run keeps it absent and schedules no session-close and no cache-delete for
its session (other connections in the run own different sessions). -/
theorem hubRun_effects_absent (ops : List HubOp) :
    ∀ s (c : Client), c ∉ s →
      HubOp.register c ∉ ops →
      (∀ op ∈ ops, clientOf op = c ∨ (clientOf op).sessionID ≠ c.sessionID) →
      c ∉ (hubRun s ops).1 ∧
      sessionCloseCount (hubRun s ops).2 c.sessionID = 0 ∧
      cacheDeleteCount (hubRun s ops).2 c.userID c.sessionID = 0 := by
  induction ops with
  | nil =>
    intro s c hc _ _
    exact ⟨hc, rfl, rfl⟩
  | cons op ops ih =>
    intro s c hc hreg hops
    have hops' : ∀ op' ∈ ops, clientOf op' = c ∨ (clientOf op').sessionID ≠ c.sessionID :=
      fun op' h' => hops op' (List.mem_cons_of_mem op h')
    have hreg' : HubOp.register c ∉ ops := fun h' => hreg (List.mem_cons_of_mem op h')
    cases op with
    | register d =>
      have hdc : d ≠ c := by
        intro h'
        subst h'
        exact hreg (List.mem_cons_self _ _)
      have hcs' : c ∉ (hubStep s (HubOp.register d)).1 := by
        by_cases hd : d ∈ s
        · simpa [hubStep, hd] using hc
        · simp only [hubStep, if_neg hd]
          intro hmem
          rcases List.mem_cons.mp hmem with h' | h'
          · exact hdc h'.symm
          · exact hc h'
      have heff : (hubStep s (HubOp.register d)).2 = [] := rfl
      have hrec := ih _ c hcs' hreg' hops'
      refine ⟨by rw [hubRun_fst_cons]; exact hrec.1, ?_, ?_⟩
      · rw [hubRun_snd_cons, heff, List.nil_append]
        exact hrec.2.1
      · rw [hubRun_snd_cons, heff, List.nil_append]
        exact hrec.2.2
    | unregister d =>
      by_cases hd : d ∈ s
      · have hdc : d ≠ c := fun h' => hc (h' ▸ hd)
        have hsid : d.sessionID ≠ c.sessionID := by
          rcases hops (HubOp.unregister d) (List.mem_cons_self _ _) with h' | h'
          · exact absurd h' hdc
          · exact h'
        have hcs' : c ∉ s.erase d := fun h' => hc (List.mem_of_mem_erase h')
        have hrec := ih (s.erase d) c hcs' hreg' hops'
        have hstate : (hubStep s (HubOp.unregister d)).1 = s.erase d := by
          simp [hubStep, hd]
        have heff : (hubStep s (HubOp.unregister d)).2
            = [Effect.sessionClose d.sessionID,
               Effect.cacheDelete d.userID d.sessionID] := by
          simp [hubStep, hd]
        refine ⟨?_, ?_, ?_⟩
        · rw [hubRun_fst_cons, hstate]
          exact hrec.1
        · rw [hubRun_snd_cons, heff, hstate, sessionCloseCount_append,
            sessionCloseCount_pair, if_neg hsid, hrec.2.1]
        · rw [hubRun_snd_cons, heff, hstate, cacheDeleteCount_append,
            cacheDeleteCount_pair, hrec.2.2]
          simp [hsid]
      · have hstate : (hubStep s (HubOp.unregister d)).1 = s := by
          simp [hubStep, hd]
        have heff : (hubStep s (HubOp.unregister d)).2 = [] := by
          simp [hubStep, hd]
        have hrec := ih s c hc hreg' hops'
        refine ⟨?_, ?_, ?_⟩
        · rw [hubRun_fst_cons, hstate]
          exact hrec.1
        · rw [hubRun_snd_cons, heff, List.nil_append, hstate]
          exact hrec.2.1
        · rw [hubRun_snd_cons, heff, List.nil_append, hstate]
          exact hrec.2.2

/-- While a connection is live, never re-registered, and eventually
unregistered, a run schedules exactly one session-close and exactly one
cache-delete for its session, no matter how many unregister requests for it
arrive. -/
theorem hubRun_effects_live (ops : List HubOp) :
    ∀ s (c : Client), c ∈ s → s.Nodup →
      HubOp.register c ∉ ops →
      (∀ op ∈ ops, clientOf op = c ∨ (clientOf op).sessionID ≠ c.sessionID) →
      HubOp.unregister c ∈ ops →
      sessionCloseCount (hubRun s ops).2 c.sessionID = 1 ∧
      cacheDeleteCount (hubRun s ops).2 c.userID c.sessionID = 1 := by
  induction ops with
  | nil =>
    intro s c _ _ _ _ habs
    simp at habs
  | cons op ops ih =>
    intro s c hc hnd hreg hops hun
    have hops' : ∀ op' ∈ ops, clientOf op' = c ∨ (clientOf op').sessionID ≠ c.sessionID :=
      fun op' h' => hops op' (List.mem_cons_of_mem op h')
    have hreg' : HubOp.register c ∉ ops := fun h' => hreg (List.mem_cons_of_mem op h')
    cases op with
    | register d =>
      have hun' : HubOp.unregister c ∈ ops := by
        rcases List.mem_cons.mp hun with h' | h'
        · exact absurd h' (by simp)
        · exact h'
      have hcs' : c ∈ (hubStep s (HubOp.register d)).1 := by
        by_cases hd : d ∈ s
        · simpa [hubStep, hd] using hc
        · simp [hubStep, hd, List.mem_cons, hc]
      have heff : (hubStep s (HubOp.register d)).2 = [] := rfl
      have hrec := ih _ c hcs' (hubStep_nodup s _ hnd) hreg' hops' hun'
      exact ⟨by rw [hubRun_snd_cons, heff, List.nil_append]; exact hrec.1,
             by rw [hubRun_snd_cons, heff, List.nil_append]; exact hrec.2⟩
    | unregister d =>
      by_cases hdc : d = c
      · subst hdc
        have hstate : (hubStep s (HubOp.unregister d)).1 = s.erase d := by
          simp [hubStep, hc]
        have heff : (hubStep s (HubOp.unregister d)).2
            = [Effect.sessionClose d.sessionID,
               Effect.cacheDelete d.userID d.sessionID] := by
          simp [hubStep, hc]
        have hgone : d ∉ s.erase d := fun h' => ((hnd.mem_erase_iff).mp h').1 rfl
        have hrec := hubRun_effects_absent ops (s.erase d) d hgone hreg' hops'
        constructor
        · rw [hubRun_snd_cons, heff, hstate, sessionCloseCount_append,
            sessionCloseCount_pair, if_pos rfl, hrec.2.1]
        · rw [hubRun_snd_cons, heff, hstate, cacheDeleteCount_append,
            cacheDeleteCount_pair, hrec.2.2]
          simp
      · have hun' : HubOp.unregister c ∈ ops := by
          rcases List.mem_cons.mp hun with h' | h'
          · have hcd : c = d := by injection h'
            exact absurd hcd.symm hdc
          · exact h'
        by_cases hd : d ∈ s
        · have hsid : d.sessionID ≠ c.sessionID := by
            rcases hops (HubOp.unregister d) (List.mem_cons_self _ _) with h' | h'
            · exact absurd h' hdc
            · exact h'
          have hstate : (hubStep s (HubOp.unregister d)).1 = s.erase d := by
            simp [hubStep, hd]
          have heff : (hubStep s (HubOp.unregister d)).2
              = [Effect.sessionClose d.sessionID,
                 Effect.cacheDelete d.userID d.sessionID] := by
            simp [hubStep, hd]
          have hcd : c ≠ d := fun h' => hdc h'.symm
          have hcs' : c ∈ s.erase d := (List.mem_erase_of_ne hcd).mpr hc
          have hrec := ih (s.erase d) c hcs' (hnd.erase d) hreg' hops' hun'
          constructor
          · rw [hubRun_snd_cons, heff, hstate, sessionCloseCount_append,
              sessionCloseCount_pair, if_neg hsid, hrec.1]
          · rw [hubRun_snd_cons, heff, hstate, cacheDeleteCount_append,
              cacheDeleteCount_pair, hrec.2]
            simp [hsid]
        · have hstate : (hubStep s (HubOp.unregister d)).1 = s := by
            simp [hubStep, hd]
          have heff : (hubStep s (HubOp.unregister d)).2 = [] := by
            simp [hubStep, hd]
          have hrec := ih s c hc hnd hreg' hops' hun'
          exact ⟨by rw [hubRun_snd_cons, heff, List.nil_append, hstate]; exact hrec.1,
                 by rw [hubRun_snd_cons, heff, List.nil_append, hstate]; exact hrec.2⟩

/-- Complementary fact for the serviced path: a connection that is
registered once gets exactly one session-close attempt and exactly one
cache-invalidation attempt for its (user, session) pair, for however many
unregister requests for it the coordinator actually services (duplicates are
no-ops).  Other requests in the run belong to connections owning different
sessions, as the adapter creates one session per connection.  This covers
only unregister requests that reach a live coordinator loop; see the
send-failure theorem below for the broadcast-failure path, which never gets
here. -/
theorem disconnect_side_effects_once (pre post : List HubOp) (c : Client)
    (hpre : HubOp.register c ∉ pre)
    (hpost : HubOp.register c ∉ post)
    (hun : HubOp.unregister c ∈ post)
    (hsess : ∀ op ∈ pre ++ HubOp.register c :: post,
      clientOf op = c ∨ (clientOf op).sessionID ≠ c.sessionID) :
    sessionCloseCount (hubRun [] (pre ++ HubOp.register c :: post)).2 c.sessionID = 1 ∧
    cacheDeleteCount (hubRun [] (pre ++ HubOp.register c :: post)).2
      c.userID c.sessionID = 1 := by
  have hsess_pre : ∀ op ∈ pre, clientOf op = c ∨ (clientOf op).sessionID ≠ c.sessionID :=
    fun op h => hsess op (List.mem_append_left _ h)
  have hsess_post : ∀ op ∈ post, clientOf op = c ∨ (clientOf op).sessionID ≠ c.sessionID :=
    fun op h => hsess op (List.mem_append_right _ (List.mem_cons_of_mem _ h))
  have habs := hubRun_effects_absent pre [] c (List.not_mem_nil c) hpre hsess_pre
  have hnd1 : (hubRun [] pre).1.Nodup := hubRun_nodup pre [] List.nodup_nil
  have hcs2 : c ∈ (hubStep (hubRun [] pre).1 (HubOp.register c)).1 := by
    by_cases h : c ∈ (hubRun [] pre).1
    · simp [hubStep, h]
    · simp [hubStep, h]
  have heff2 : (hubStep (hubRun [] pre).1 (HubOp.register c)).2 = [] := rfl
  have hlive := hubRun_effects_live post (hubStep (hubRun [] pre).1 (HubOp.register c)).1 c
    hcs2 (hubStep_nodup _ _ hnd1) hpost hsess_post hun
  constructor
  · rw [hubRun_snd_append, sessionCloseCount_append, habs.2.1, hubRun_snd_cons, heff2,
      List.nil_append, hlive.1]
  · rw [hubRun_snd_append, cacheDeleteCount_append, habs.2.2, hubRun_snd_cons, heff2,
      List.nil_append, hlive.2]

/-- Concrete instance of the serviced-path fact: one register followed by
two serviced unregister requests still yields one attempt pair. -/
theorem disconnect_side_effects_once_witness :
    sessionCloseCount (hubRun []
      ([] ++ HubOp.register cA :: [HubOp.unregister cA, HubOp.unregister cA])).2
      cA.sessionID = 1 ∧
    cacheDeleteCount (hubRun []
      ([] ++ HubOp.register cA :: [HubOp.unregister cA, HubOp.unregister cA])).2
      cA.userID cA.sessionID = 1 :=
  disconnect_side_effects_once [] [HubOp.unregister cA, HubOp.unregister cA] cA
    (by decide) (by decide) (by decide) (by decide)

/-- C9: a disconnect caused by a send failure during a broadcast yields ZERO
session-close attempts and ZERO cache-invalidation attempts, not exactly
one: dispatching `thread_created` to the single live client `cA` whose
endpoint rejects the write makes the dispatch perform the synchronous
`h.unregister <- cA` enqueue during its iteration (`syncUnregs = [cA]`), so
the coordinator goroutine blocks forever on its own unregister queue and the
pending unregister request for `cA` is never serviced — no side effect is
ever scheduled for its (user, session) pair.  This evaluates the code at the
failing input: the claim is the spec's intent (its testable-properties
section names exactly this case) and the code's synchronous enqueue is the
slip already established for C1. -/
theorem sendfailure_disconnect_no_attempts :
    (handleEvent [cA] (fun _ => false) threadEv).syncUnregs = [cA] ∧
    sessionCloseCount
      (coordinatorDispatch [cA] (fun _ => false) threadEv [HubOp.unregister cA])
      cA.sessionID = 0 ∧
    cacheDeleteCount
      (coordinatorDispatch [cA] (fun _ => false) threadEv [HubOp.unregister cA])
      cA.userID cA.sessionID = 0 := by
  decide

end Chan404
